import Mathlib

/-! Verification development for the InfoDash daily-summary subsystem.

The definitions below are a shallow embedding of the summary-related code in
`src/server.js`, `src/public/js/summary.js` and the finance client script
(`src/unnamed/part_000`).  JavaScript strings are modelled as `List Char`,
JavaScript objects keyed by date as association lists, and the ambient
effects (current time, network responses, the LLM completion outcome) as
explicit parameters.  Fallible steps that the source catches internally are
modelled by `Option` / explicit result constructors.
-/

set_option maxRecDepth 4000

/-- JavaScript strings are modelled as lists of characters. -/
abbrev Str := List Char

/-- Prefix test: `leadsWith pat s` holds when `pat` is an initial segment of `s`
(the prefix test used to model anchored regex-literal matching). -/
def leadsWith : Str → Str → Bool
  | [], _ => true
  | _ :: _, [] => false
  | a :: as, b :: bs => a == b && leadsWith as bs

/-- Substring test `hasSub pat s`: `pat` occurs somewhere inside `s`
(the semantics of `String.prototype.includes` and of an unanchored
regex literal). -/
def hasSub (pat : Str) : Str → Bool
  | [] => leadsWith pat []
  | s@(_ :: rest) => leadsWith pat s || hasSub pat rest

/-- JavaScript `s.includes(pat)`, in method-receiver argument order. -/
def jsIncludes (s pat : Str) : Bool := hasSub pat s

/-- The whitespace class trimmed by `String.prototype.trim`
(restricted to the characters that occur in this code base). -/
def isJsSpace (c : Char) : Bool :=
  c == ' ' || c == '\t' || c == '\n' || c == '\r'

/-- The `String.prototype.trim` operation: strip leading and trailing whitespace. -/
def trimStr (s : Str) : Str :=
  ((s.dropWhile isJsSpace).reverse.dropWhile isJsSpace).reverse

/-- Does one of `terms` match at the start of `s`?  This models the regex
lookahead `(?=T1|T2|...)` used by the section parser. -/
def isTermAt (terms : List Str) (s : Str) : Bool :=
  terms.any (fun t => leadsWith t s)

/-- Lazy capture `(.*?)(?=T1|T2|...)` with the `/s` flag: consume the
shortest run of characters after which one of `terms` matches; fail
(`none`) when no terminator occurs anywhere in the remaining text.
This is exactly the backtracking behaviour of the JavaScript engine on
the parser's patterns. -/
def captureUntil (terms : List Str) : Str → Option Str
  | [] => none
  | s@(c :: rest) =>
    if isTermAt terms s then some []
    else (captureUntil terms rest).map (fun cap => c :: cap)

/-- One attempt of `(?:H1|H2:?)(.*?)(?=...)` at a fixed position: try the
markdown-emphasised header `hdr1`, then the plain header `hdr2` with an
optional colon, each followed by the lazy capture; mirror the engine's
backtracking across the alternatives. -/
def tryHeaderAt (hdr1 hdr2 : Str) (terms : List Str) (s : Str) : Option Str :=
  match (if leadsWith hdr1 s then captureUntil terms (s.drop hdr1.length) else none) with
  | some cap => some cap
  | none =>
    match (if leadsWith (hdr2 ++ [':']) s then captureUntil terms (s.drop (hdr2.length + 1)) else none) with
    | some cap => some cap
    | none => if leadsWith hdr2 s then captureUntil terms (s.drop hdr2.length) else none

/-- Leftmost match of `(?:H1|H2:?)(.*?)(?=...)` over the whole text:
scan positions left to right and return the first successful capture. -/
def scanMatch (hdr1 hdr2 : Str) (terms : List Str) : Str → Option Str
  | [] => tryHeaderAt hdr1 hdr2 terms []
  | s@(_ :: rest) =>
    match tryHeaderAt hdr1 hdr2 terms s with
    | some cap => some cap
    | none => scanMatch hdr1 hdr2 terms rest

/-- One attempt of `(?:H1|H2:?)(.*?)$` at a fixed position: the capture
runs to the end of the text (the `/s` flag makes `.` match newlines and
`$` anchors at the very end). -/
def tryHeaderAtEnd (hdr1 hdr2 : Str) (s : Str) : Option Str :=
  if leadsWith hdr1 s then some (s.drop hdr1.length)
  else if leadsWith (hdr2 ++ [':']) s then some (s.drop (hdr2.length + 1))
  else if leadsWith hdr2 s then some (s.drop hdr2.length)
  else none

/-- Leftmost match of `(?:H1|H2:?)(.*?)$` over the whole text. -/
def scanMatchEnd (hdr1 hdr2 : Str) : Str → Option Str
  | [] => tryHeaderAtEnd hdr1 hdr2 []
  | s@(_ :: rest) =>
    match tryHeaderAtEnd hdr1 hdr2 s with
    | some cap => some cap
    | none => scanMatchEnd hdr1 hdr2 rest

/-- The four header literals, plain spelling. -/
def newsHdr : Str := "NEWS HIGHLIGHTS".toList

/-- Trending-topics header, plain spelling. -/
def trendsHdr : Str := "TRENDING TOPICS".toList

/-- Market-overview header, plain spelling. -/
def marketHdr : Str := "MARKET OVERVIEW".toList

/-- Info-genie header, plain spelling. -/
def genieHdr : Str := "INFO GENIE".toList

/-- Markdown-emphasised spelling of a header. -/
def starred (hdr : Str) : Str := "**".toList ++ hdr ++ "**".toList

/-- The horizontal-rule terminator `---`. -/
def hrMark : Str := "---".toList

/-- Parsed section record produced by the section parser: each field is
absent exactly when its regex did not match. -/
structure ParsedSections where
  news : Option Str
  trends : Option Str
  finance : Option Str
  insights : Option Str
deriving DecidableEq

/-- Embedding of `AutomatedSummaryGenerator.parseAutomatedSummarySections` from
`src/server.js` (lines 1027-1043), four regex matches with trimming:

* news: `(?:\*\*NEWS HIGHLIGHTS\*\*|NEWS HIGHLIGHTS:?)(.*?)(?=\*\*TRENDING TOPICS\*\*|TRENDING TOPICS:?|---)`
* trends: terminated by the market-overview header or `---`
* finance: terminated by the info-genie header or `---`
* insights: `(?:\*\*INFO GENIE\*\*|INFO GENIE:?)(.*?)$` -/
def parseAutomatedSummarySections (t : Str) : ParsedSections :=
  { news := (scanMatch (starred newsHdr) newsHdr [starred trendsHdr, trendsHdr, hrMark] t).map trimStr
    trends := (scanMatch (starred trendsHdr) trendsHdr [starred marketHdr, marketHdr, hrMark] t).map trimStr
    finance := (scanMatch (starred marketHdr) marketHdr [starred genieHdr, genieHdr, hrMark] t).map trimStr
    insights := (scanMatchEnd (starred genieHdr) genieHdr t).map trimStr }

/-- Embedding of `parseSummarySections` from `src/public/js/summary.js` (lines 749-798):
its four regexes are character-for-character identical to the server-side
`parseAutomatedSummarySections`, so the embedding shares the body. -/
def parseSummarySections (t : Str) : ParsedSections :=
  parseAutomatedSummarySections t

/-! Market-calendar evaluator.

`src/server.js` lines 160-240 define a zero-argument `isMarketOpen()` that
converts the current instant to America/New_York local time and then reads
only the local components.  The embedding therefore takes the Eastern-time
wall-clock components directly.  `src/unnamed/part_000` lines 153-242
define a second `isMarketOpen()` that first reads the queried symbol from
the DOM and short-circuits to `true` for `-USD` crypto pairs; its calendar
body is character-for-character the same as the server one.
-/

/-- Eastern-time wall-clock components of an instant, as read off the
JavaScript `Date` converted to `America/New_York`:
`month` is 0-based and `day` is the weekday with 0 = Sunday. -/
structure ETTime where
  year : Nat
  month : Nat
  date : Nat
  day : Nat
  hour : Nat
  minute : Nat
deriving DecidableEq

/-- Easter Sunday (0-based month, day of month) by the "Computus" code in
`isGoodFriday`.  All the intermediate JavaScript values are non-negative
for every `year`, so plain `Nat` arithmetic with floor division agrees
with the source. -/
def easterMonthDay (year : Nat) : Nat × Nat :=
  let a := year % 19
  let b := year / 100
  let c := year % 100
  let d1 := b / 4
  let e := b % 4
  let f1 := (b + 8) / 25
  let g := (b - f1 + 1) / 3
  let h := (19 * a + b - d1 - g + 15) % 30
  let i := c / 4
  let k := c % 4
  let l := (32 + 2 * e + 2 * i - h - k) % 7
  let m := (a + 11 * h + 22 * l) / 451
  let month := (h + l - 7 * m + 114) / 31 - 1
  let day := (h + l - 7 * m + 114) % 31 + 1
  (month, day)

/-- Good Friday is two days before Easter Sunday; `setDate(getDate() - 2)`
normalises April 1/2 back into 31-day March, the only underflow that can
occur since Easter falls in [March 22, April 25]. -/
def goodFridayMonthDay (year : Nat) : Nat × Nat :=
  let p := easterMonthDay year
  if p.2 > 2 then (p.1, p.2 - 2) else (p.1 - 1, 31 + p.2 - 2)

/-- The `isGoodFriday` helper: same calendar day (year, month, date) as the
computed Good Friday of that year (`toDateString` equality). -/
def isGoodFriday (t : ETTime) : Bool :=
  let p := goodFridayMonthDay t.year
  t.month == p.1 && t.date == p.2

/-- The `isHoliday` immediately-invoked block shared by both
`isMarketOpen` bodies: fixed-date holidays with weekend observance,
the floating Monday/Thursday holidays, and Good Friday. -/
def isHoliday (t : ETTime) : Bool :=
  let month := t.month
  let date := t.date
  let dayOfWeek := t.day
  if (month == 0 && date == 1) ||
     (month == 5 && date == 19) ||
     (month == 6 && (date == 4 || (date == 3 && dayOfWeek == 5) || (date == 5 && dayOfWeek == 1))) ||
     (month == 11 && (date == 25 || (date == 24 && dayOfWeek == 5) || (date == 26 && dayOfWeek == 1))) then
    true
  else if month == 0 && dayOfWeek == 1 && 15 ≤ date && date ≤ 21 then true
  else if month == 1 && dayOfWeek == 1 && 15 ≤ date && date ≤ 21 then true
  else if month == 4 && dayOfWeek == 1 && 24 < date then true
  else if month == 8 && dayOfWeek == 1 && date ≤ 7 then true
  else if month == 10 && dayOfWeek == 4 && 22 ≤ date && date ≤ 28 then true
  else if isGoodFriday t then true
  else false

/-- The shared tail of both `isMarketOpen` bodies: weekday, not a holiday,
and local time inside [09:30, 16:00). -/
def marketCalendarOpen (t : ETTime) : Bool :=
  if 1 ≤ t.day && t.day ≤ 5 && !(isHoliday t) then
    (t.hour > 9 || (t.hour == 9 && 30 ≤ t.minute)) && t.hour < 16
  else false

/-- Embedding of `isMarketOpen` from `src/server.js` (lines 160-240).  It takes no
instrument: the server-side evaluator looks only at the Eastern-time
calendar and clock. -/
def serverIsMarketOpen (t : ETTime) : Bool :=
  marketCalendarOpen t

/-- Uppercasing used on the DOM symbol value. -/
def upperStr (s : Str) : Str := s.map Char.toUpper

/-- Suffix test, the semantics of `String.prototype.endsWith`. -/
def endsWithStr (s suffx : Str) : Bool := leadsWith suffx.reverse s.reverse

/-- The symbol the finance-client evaluator queries: the uppercased value
of the `stockSymbolInput` element, defaulting to the primary index when
the element is missing. -/
def clientQuerySymbol (inputVal : Option Str) : Str :=
  match inputVal with
  | some s => upperStr s
  | none => "^IXIC".toList

/-- Embedding of `isMarketOpen` from `src/unnamed/part_000` (lines 153-242): the crypto
check `symbol.endsWith('-USD')` short-circuits to open; otherwise the
calendar body is identical to the server-side evaluator. -/
def financeIsMarketOpen (inputVal : Option Str) (t : ETTime) : Bool :=
  let symbol := clientQuerySymbol inputVal
  if endsWithStr symbol ("-USD".toList) then true
  else marketCalendarOpen t

/-! Summary store.

`saveDailySummary` / `loadDailySummary` (`src/server.js` lines 243-395)
persist one JSON object mapping ISO date strings to either a single
summary object (first write for a date, and legacy data) or an array of
region-tagged summary objects.  The JSON object is modelled as an
insertion-ordered association list with unique keys, exactly the shape
`Object.entries` iterates.
-/

/-- A stored summary object.  Payload fields mirror the spread
`{...summaryData}`; `language`/`country`/`timestamp`/`marketOpen` are the
metadata added by `saveDailySummary` and are absent on legacy records. -/
structure StoredSummary where
  news : Option Str
  trends : Option Str
  finance : Option Str
  overall : Option Str
  generatedAt : Option Str
  automated : Bool
  language : Option Str
  country : Option Str
  timestamp : Option Str
  marketOpen : Option Bool
deriving DecidableEq

/-- A date bucket: the file stores either one object or an array. -/
inductive DateBucket where
  | one (r : StoredSummary)
  | many (rs : List StoredSummary)
deriving DecidableEq

/-- The summaries file: a JSON object keyed by date string. -/
abbrev Archive := List (Str × DateBucket)

/-- Object property read `summaries[date]`. -/
def lookupDate : Archive → Str → Option DateBucket
  | [], _ => none
  | (k, v) :: rest, d => if k == d then some v else lookupDate rest d

/-- Object property write `summaries[date] = b`: replace in place when the
key exists, append otherwise (JavaScript string-key insertion order). -/
def setDate : Archive → Str → DateBucket → Archive
  | [], d, b => [(d, b)]
  | (k, v) :: rest, d, b =>
    if k == d then (d, b) :: rest else (k, v) :: setDate rest d b

/-- Strict string equality against a possibly-absent field
(`summary.language === language`): an absent field equals nothing. -/
def optEq (v : Option Str) (x : Str) : Bool :=
  match v with
  | some s => s == x
  | none => false

/-- JavaScript truthiness of a possibly-absent string field. -/
def strTruthy (v : Option Str) : Bool :=
  match v with
  | some s => !s.isEmpty
  | none => false

/-- The caller-supplied `summaryData` argument of `saveDailySummary`
(the fields the two generation paths put in it). -/
structure SummaryData where
  news : Option Str
  trends : Option Str
  finance : Option Str
  overall : Option Str
  generatedAt : Option Str
  automated : Bool
deriving DecidableEq

/-- The `summaryWithMetadata` object built by `saveDailySummary`:
`{...summaryData, language, country, timestamp, marketOpen, automated: summaryData.automated || false}`.
`ts` and `mkt` stand for the ambient `new Date().toISOString()` and
`isMarketOpen()` values at save time. -/
def summaryWithMetadata (sd : SummaryData) (language country ts : Str) (mkt : Bool) : StoredSummary :=
  { news := sd.news
    trends := sd.trends
    finance := sd.finance
    overall := sd.overall
    generatedAt := sd.generatedAt
    automated := sd.automated
    language := some language
    country := some country
    timestamp := some ts
    marketOpen := some mkt }

/-- Embedding of `saveDailySummary` (`src/server.js` lines 243-314), the read-modify-write
on the summaries object.  An existing array bucket is filtered of records
with the same `(language, country)` before the push; an existing single
object is converted to a two-element array (the source applies no filter
on that branch); a fresh date gets a single object.  The global-variable
update and the re-serialisation to disk carry no information for the
claims and are not modelled. -/
def saveDailySummary (archive : Archive) (sd : SummaryData) (date language country ts : Str) (mkt : Bool) : Archive :=
  let newRec := summaryWithMetadata sd language country ts mkt
  match lookupDate archive date with
  | some (DateBucket.many rs) =>
    setDate archive date (DateBucket.many
      ((rs.filter (fun s => !(optEq s.language language && optEq s.country country))) ++ [newRec]))
  | some (DateBucket.one r0) =>
    setDate archive date (DateBucket.many [r0, newRec])
  | none =>
    setDate archive date (DateBucket.one newRec)

/-- Embedding of `loadDailySummary` (`src/server.js` lines 317-395): bucket lookup and
the three bucket shapes.  A missing or unreadable file is the empty
archive; every fault path in the source returns `null`. -/
def loadDailySummary (archive : Archive) (date language country : Str) : Option StoredSummary :=
  match lookupDate archive date with
  | none => none
  | some (DateBucket.many rs) =>
    rs.find? (fun s => optEq s.language language && optEq s.country country)
  | some (DateBucket.one r) =>
    if strTruthy r.language && strTruthy r.country then
      if optEq r.language language && optEq r.country country then some r else none
    else
      if language == "en".toList && country == "US".toList then some r else none

/-- Number of stored records in the bucket of a given date. -/
def recordsForDate (archive : Archive) (date : Str) : Nat :=
  match lookupDate archive date with
  | none => 0
  | some (DateBucket.one _) => 1
  | some (DateBucket.many rs) => rs.length

/-! Archive browsing: the summary-history endpoint.

`GET /api/summary/history` (`src/server.js` lines 1655-1729) flattens the
summaries object into an entry list, skipping malformed keys, and sorts it
with the comparator `(a, b) => new Date(b.date) - new Date(a.date)`.
-/

/-- An entry of the flattened `summaryArray`. -/
structure HistoryEntry where
  date : Str
  timestamp : Option Str
  marketOpen : Option Bool
  language : Str
  country : Str
  automated : Bool
  hasData : Bool
deriving DecidableEq

/-- JavaScript `v || d` on a possibly-absent string field: the default
applies to an absent field and to an empty (falsy) string. -/
def jsOrStr (v : Option Str) (d : Str) : Str :=
  match v with
  | some s => if s.isEmpty then d else s
  | none => d

/-- Build one flattened entry from a record under a date key. -/
def historyEntryOf (date : Str) (r : StoredSummary) : HistoryEntry :=
  { date := date
    timestamp := r.timestamp
    marketOpen := r.marketOpen
    language := jsOrStr r.language ("en".toList)
    country := jsOrStr r.country ("US".toList)
    automated := r.automated
    hasData := strTruthy r.news || strTruthy r.trends || strTruthy r.finance || strTruthy r.overall }

/-- Piece count of `date.split('-')`, used by the malformed-key check. -/
def dashPieces : Str → Nat
  | [] => 1
  | c :: rest => (if c == '-' then 1 else 0) + dashPieces rest

/-- The first skip: keys containing language/country info
(`date.includes('-') && date.split('-').length > 3`). -/
def malformedKey (s : Str) : Bool :=
  jsIncludes s ([( '-' )]) && decide (3 < dashPieces s)

/-- The second skip: the shape test `/^\d{4}-\d{2}-\d{2}$/`. -/
def isDateShaped (s : Str) : Bool :=
  match s with
  | [y1, y2, y3, y4, h1, m1, m2, h2, d1, d2] =>
    y1.isDigit && y2.isDigit && y3.isDigit && y4.isDigit &&
    h1 == '-' && m1.isDigit && m2.isDigit && h2 == '-' &&
    d1.isDigit && d2.isDigit
  | _ => false

/-- Keys that survive both skips inside the `forEach`. -/
def historyKeyKept (s : Str) : Bool :=
  !(malformedKey s) && isDateShaped s

/-- The flattened entry list in `Object.entries` order, before sorting:
array buckets contribute one entry per record, single buckets one entry. -/
def historyEntries (archive : Archive) : List HistoryEntry :=
  (archive.filter (fun kv => historyKeyKept kv.1)).flatMap (fun kv =>
    match kv.2 with
    | DateBucket.many rs => rs.map (historyEntryOf kv.1)
    | DateBucket.one r => [historyEntryOf kv.1 r])

/-- Numeric digit value of an ASCII digit character. -/
def digitVal (c : Char) : Nat := c.toNat - 48

/-- Gregorian leap-year rule (the one `Date` uses). -/
def isLeapYear (y : Nat) : Bool :=
  (y % 4 == 0 && !(y % 100 == 0)) || y % 400 == 0

/-- Days in a (1-based) month of a year. -/
def daysInMonth (y m : Nat) : Nat :=
  if m == 2 then (if isLeapYear y then 29 else 28)
  else if m == 4 || m == 6 || m == 9 || m == 11 then 30
  else 31

/-- The value of `new Date(key)` on a `\d{4}-\d{2}-\d{2}` key, encoded
order-faithfully: `some` of a number strictly monotone in the calendar
date when the key denotes a real calendar date, `none` for the NaN of an
invalid date (out-of-range month or day: ISO parsing rejects rather than
normalises them). -/
def dateValue (s : Str) : Option Nat :=
  match s with
  | [y1, y2, y3, y4, h1, m1, m2, h2, d1, d2] =>
    if (y1.isDigit && y2.isDigit && y3.isDigit && y4.isDigit &&
        h1 == '-' && m1.isDigit && m2.isDigit && h2 == '-' &&
        d1.isDigit && d2.isDigit) then
      let y := ((digitVal y1 * 10 + digitVal y2) * 10 + digitVal y3) * 10 + digitVal y4
      let mo := digitVal m1 * 10 + digitVal m2
      let d := digitVal d1 * 10 + digitVal d2
      if 1 ≤ mo ∧ mo ≤ 12 ∧ 1 ≤ d ∧ d ≤ daysInMonth y mo then
        some (y * 10000 + mo * 100 + d)
      else none
    else none
  | _ => none

/-- The sort comparator `(a, b) => new Date(b.date) - new Date(a.date)`;
per the ECMAScript specification a NaN comparator value is treated as 0. -/
def historyCmp (a b : HistoryEntry) : Int :=
  match dateValue b.date, dateValue a.date with
  | some vb, some va => (vb : Int) - (va : Int)
  | _, _ => 0

/-- Stable insertion of one element into an already-sorted run: the new
element goes after every element the comparator does not order after it.
For a consistent comparator this realises exactly the (stable)
`Array.prototype.sort` order. -/
def sortInsert (x : HistoryEntry) : List HistoryEntry → List HistoryEntry
  | [] => [x]
  | y :: ys => if historyCmp y x ≤ 0 then y :: sortInsert x ys else x :: y :: ys

/-- Stable sort by `historyCmp` (insertion sort). -/
def sortByHistoryCmp (l : List HistoryEntry) : List HistoryEntry :=
  l.foldl (fun acc x => sortInsert x acc) []

/-- The `summaries` array answered by `GET /api/summary/history`:
flatten, then sort by date descending. -/
def summaryHistory (archive : Archive) : List HistoryEntry :=
  sortByHistoryCmp (historyEntries archive)

/-! Generation orchestrator (server side).

`AutomatedSummaryGenerator` (`src/server.js` lines 415-1059).  Network
collection and the LLM completion are ambient effects: one generation
attempt is parameterised by a `GenEnv` recording what those effects would
return.  Every fault path inside the class is caught in the source, so
the embedding is a total function returning an explicit result tag.
-/

/-- One collected headline (`collectAutomatedNewsData` output element). -/
structure Headline where
  title : Str
  description : Str
  source : Str
deriving DecidableEq

/-- One collected trending topic. -/
structure TrendTopic where
  title : Str
  traffic : Str
deriving DecidableEq

/-- One processed finance quote. -/
structure FinQuote where
  price : Str
  change : Str
  changePercent : Str
deriving DecidableEq

/-- The `sectionData` bundle from `collectAutomatedSectionData`: each
field is `null` when its collector failed; the finance field is a keyed
object, modelled as its property list so that `Object.keys(...).length`
is its length. -/
structure Bundle where
  news : Option (List Headline)
  trends : Option (List TrendTopic)
  finance : Option (List (Str × FinQuote))
deriving DecidableEq

/-- The insufficient-data guard of `generateSummaryForRegion`, news half:
`!sectionData.news || sectionData.news.length === 0`. -/
def newsMissing (b : Bundle) : Bool :=
  match b.news with
  | none => true
  | some l => l.length == 0

/-- Finance half of the guard:
`!sectionData.finance || Object.keys(sectionData.finance).length === 0`. -/
def financeMissing (b : Bundle) : Bool :=
  match b.finance with
  | none => true
  | some o => o.length == 0

/-- The validity test applied to the LLM reply before saving (and, with
the same two literals, applied by the client-side manual path):
`summaryText && !summaryText.includes('Error:') && !summaryText.includes('Unable to generate')`. -/
def validSummaryText (v : Option Str) : Bool :=
  match v with
  | none => false
  | some t => !(jsIncludes t ("Error:".toList)) && !(jsIncludes t ("Unable to generate".toList))

/-- Ambient effects of one `generateSummaryForRegion` run:
`sectionData` is what `collectAutomatedSectionData` resolves to, `llm`
what `generateAutomatedSummary` resolves to (`none` after exhausted
retries), `genAt`/`saveTs`/`marketOpen` the clock and market-calendar
reads, and `innerThrow` stands for an unexpected exception reaching the
surrounding `catch` (dead in the source, kept for its control flow). -/
structure GenEnv where
  innerThrow : Bool
  sectionData : Option Bundle
  llm : Option Str
  genAt : Str
  saveTs : Str
  marketOpen : Bool
deriving DecidableEq

/-- Outcome tag of one `generateSummaryForRegion` run. -/
inductive RegionResult where
  | errored
  | skippedExisting
  | skippedNoData
  | skippedInsufficient
  | failedGenerate
  | saved
deriving DecidableEq

/-- Embedding of `generateSummaryForRegion` (`src/server.js` lines 544-609): skip when
a record already exists for the region and date; skip when collection
returned nothing; skip when both news and finance are empty/absent;
otherwise parse the LLM reply into sections and save
`{news: sections.news || '', ..., generatedAt, automated: true}`. -/
def generateSummaryForRegion (archive : Archive) (language country date : Str) (env : GenEnv) : Archive × RegionResult :=
  if env.innerThrow then (archive, RegionResult.errored)
  else
    match loadDailySummary archive date language country with
    | some _ => (archive, RegionResult.skippedExisting)
    | none =>
      match env.sectionData with
      | none => (archive, RegionResult.skippedNoData)
      | some b =>
        if newsMissing b && financeMissing b then (archive, RegionResult.skippedInsufficient)
        else if validSummaryText env.llm then
          let t := env.llm.getD []
          let sections := parseAutomatedSummarySections t
          let sd : SummaryData :=
            { news := some (sections.news.getD [])
              trends := some (sections.trends.getD [])
              finance := some (sections.finance.getD [])
              overall := some (sections.insights.getD [])
              generatedAt := some env.genAt
              automated := true }
          (saveDailySummary archive sd date language country env.saveTs env.marketOpen, RegionResult.saved)
        else (archive, RegionResult.failedGenerate)

/-- The in-memory orchestrator state (`isGenerating`, `lastGenerationDate`). -/
structure OrchState where
  isGenerating : Bool
  lastGenerationDate : Option Str
deriving DecidableEq

/-- The configured region is fixed to en/US. -/
def regionLanguage : Str := "en".toList

/-- The configured region country. -/
def regionCountry : Str := "US".toList

/-- Embedding of `generateDailySummary` (`src/server.js` lines 510-541): single-flight
guard, same-day memo, then the region generation inside
`try ... finally {this.isGenerating = false}`.  `generateSummaryForRegion`
catches every exception itself, so the `try` body always completes and
`lastGenerationDate` is always written on this path. -/
def generateDailySummary (st : OrchState) (archive : Archive) (today : Str) (env : GenEnv) : OrchState × Archive :=
  if st.isGenerating then (st, archive)
  else if st.lastGenerationDate == some today then (st, archive)
  else
    let out := generateSummaryForRegion archive regionLanguage regionCountry today env
    ({ isGenerating := false, lastGenerationDate := some today }, out.1)

/-! LLM completion client.

Two retry loops exist.  `generateAutomatedSummary` (`src/server.js`
lines 809-866) serves the automated path: up to 3 attempts against the
one fixed model, returning `null` after exhaustion.
`callOpenRouterWithRetry` (lines 1349-1385) serves the `/api/chat`
endpoint of the interactive path: attempts walk a deduplicated fallback
model list and the last failure is re-thrown.  A completion attempt is an
oracle from (attempt number, model) to an outcome.
-/

/-- Outcome of one `openai.chat.completions.create` call: a reply with
content, a structurally empty reply, or a thrown error. -/
inductive CallOutcome where
  | success (content : Str)
  | noContent
  | failure
deriving DecidableEq

/-- The fixed model of the automated path (`selectedModel`). -/
def autoSelectedModel : Str := "z-ai/glm-4.5-air:free".toList

/-- The retry loop of `generateAutomatedSummary`:
`for (attempt = 1; attempt <= maxRetries; attempt++)` against the fixed
model; an empty reply or a thrown error both fall through to the next
attempt; `null` after the last.  Returns the trace of models attempted
in order together with the result.  `fuel` counts the remaining loop
iterations (`maxRetries - attempt + 1` at entry). -/
def autoGenGo (call : Nat → Str → CallOutcome) (attempt maxRetries fuel : Nat) : List Str × Option Str :=
  match fuel with
  | 0 => ([], none)
  | f + 1 =>
    match call attempt autoSelectedModel with
    | CallOutcome.success c => ([autoSelectedModel], some c)
    | _ =>
      if attempt == maxRetries then ([autoSelectedModel], none)
      else
        let out := autoGenGo call (attempt + 1) maxRetries f
        (autoSelectedModel :: out.1, out.2)

/-- Embedding of `generateAutomatedSummary` with `maxRetries = 3`: the pair of the
attempted-model trace and the final result (`none` is the sentinel the
caller tests). -/
def generateAutomatedSummary (call : Nat → Str → CallOutcome) : List Str × Option Str :=
  autoGenGo call 1 3 3

/-- The fallback list of `callOpenRouterWithRetry`: requested model
first, then the three fixed alternates. -/
def fallbackModels (requested : Str) : List Str :=
  [requested,
   "openai/gpt-oss-20b:free".toList,
   "meta-llama/llama-3.3-70b-instruct:free".toList,
   "qwen/qwen3-235b-a22b:free".toList]

/-- Membership of a string in a list of strings. -/
def strMem (x : Str) : List Str → Bool
  | [] => false
  | y :: ys => x == y || strMem x ys

/-- First-occurrence deduplication, the order `new Set(array)` preserves. -/
def jsSetDedupAux (seen : List Str) : List Str → List Str
  | [] => []
  | x :: xs =>
    if strMem x seen then jsSetDedupAux seen xs
    else x :: jsSetDedupAux (x :: seen) xs

/-- Deduplicated list `[...new Set(fallbackModels)]`. -/
def uniqueModels (requested : Str) : List Str :=
  jsSetDedupAux [] (fallbackModels requested)

/-- The retry loop of `callOpenRouterWithRetry`:
`for (attempt = 0; attempt <= retries; attempt++)` with
`model = uniqueModels[Math.min(attempt, uniqueModels.length - 1)]`.
Any resolved response is returned as is (the source performs no content
check here; `/api/chat` validates afterwards); only a thrown error
(`CallOutcome.failure`) drives the loop onward, and the failure on the
last attempt is re-thrown (`Except.error`).  `fuel` counts the remaining
iterations. -/
def callORGo (call : Nat → Str → CallOutcome) (uniq : List Str) (retries attempt fuel : Nat) : List Str × Except Unit CallOutcome :=
  match fuel with
  | 0 => ([], Except.error ())
  | f + 1 =>
    let model := uniq.getD (min attempt (uniq.length - 1)) []
    match call attempt model with
    | CallOutcome.failure =>
      if attempt == retries then ([model], Except.error ())
      else
        let out := callORGo call uniq retries (attempt + 1) f
        (model :: out.1, out.2)
    | r => ([model], Except.ok r)

/-- Embedding of `callOpenRouterWithRetry(options, retries)`: the attempted-model
trace and the final outcome.  The requested model comes from
`options.model`. -/
def callOpenRouterWithRetry (call : Nat → Str → CallOutcome) (requested : Str) (retries : Nat) : List Str × Except Unit CallOutcome :=
  callORGo call (uniqueModels requested) retries 0 (retries + 1)

/-! Manual refresh path (client side).

`refreshSummary` (`src/public/js/summary.js` lines 1395-1438) with the
once-per-day gate `hasRefreshedToday` / `markRefreshedToday`
(lines 1253-1270) over the persisted `lastSummaryRefreshDate` marker.
The generation attempt raced against the 60-second timeout is one
ambient outcome: a thrown error or timeout (`Except.error`), or the
`summaryText` value `generateSummary` resolved to.
-/

/-- The client-side persisted state read by the refresh gate. -/
structure ClientStore where
  lastSummaryRefreshDate : Option Str
deriving DecidableEq

/-- Outcome tag of one `refreshSummary` run. -/
inductive RefreshOutcome where
  | limited
  | succeeded
  | generationFailed
  | errored
deriving DecidableEq

/-- Embedding of `hasRefreshedToday`: bypassed on localhost, otherwise the marker
equals the local date string. -/
def hasRefreshedToday (cs : ClientStore) (today : Str) (isLocalhost : Bool) : Bool :=
  if isLocalhost then false
  else cs.lastSummaryRefreshDate == some today

/-- Embedding of `refreshSummary`: the daily-limit early return; then the attempt,
whose success branch alone calls `markRefreshedToday` (writing the
marker) — the invalid-text branch and the catch branch (timeout or any
thrown error) leave the store untouched. -/
def refreshSummary (cs : ClientStore) (today : Str) (isLocalhost : Bool) (attempt : Except Unit (Option Str)) : ClientStore × RefreshOutcome :=
  if hasRefreshedToday cs today isLocalhost then (cs, RefreshOutcome.limited)
  else
    match attempt with
    | Except.error _ => (cs, RefreshOutcome.errored)
    | Except.ok v =>
      if validSummaryText v then
        ({ lastSummaryRefreshDate := some today }, RefreshOutcome.succeeded)
      else (cs, RefreshOutcome.generationFailed)

/-- Whether the raced attempt reached `markRefreshedToday`. -/
def attemptSucceeded (attempt : Except Unit (Option Str)) : Bool :=
  match attempt with
  | Except.ok v => validSummaryText v
  | Except.error _ => false

/-- Outcome of one `/api/chat` round trip inside the client-side
`generateSummary` loop: a resolved response carrying `data.reply`
(possibly absent/empty), a retryable HTTP 404/503 status — `msg` is the
`HTTP error! status: ...` text thrown if it exhausts the retry budget —
or a thrown error (network fault or non-retryable bad status) with its
`error.message`. -/
inductive ChatOutcome where
  | reply (text : Option Str)
  | retryable (msg : Str)
  | netError (msg : Str)
deriving DecidableEq

/-- The `data.reply || '...'` fallback text of `generateSummary`. -/
def genSummaryDefault : Str := "Unable to generate summary at this time.".toList

/-- The `lastError?.message || '...'` fallback after exhausted retries. -/
def genSummaryExhaustedMsg : Str :=
  "Error: Unable to generate summary after multiple attempts.".toList

/-- The `while (retryCount < maxRetries && !summaryGenerated)` loop of the
client-side `generateSummary` (`src/public/js/summary.js` lines 471-588),
on the manual path where `summaryGenerated` was just reset to `false`.
State is `(retryCount, lastError)`; `att n` is the outcome of the n-th
round trip.  A resolved response returns `data.reply || default` at once
(both the valid and the invalid branch `return result`); a 404/503
increments and continues with `lastError` untouched unless the budget is
spent, in which case the thrown HTTP-error text is caught, recorded and
the loop exits; a thrown error is recorded and retried.  On exit the
function resolves — it does not throw — with
`lastError?.message || 'Error: Unable to generate summary after multiple attempts.'`.
`fuel` counts the remaining loop-condition checks. -/
def generateSummaryGo (att : Nat → ChatOutcome) (n retryCount : Nat) (lastError : Option Str) (fuel : Nat) : Str :=
  match fuel with
  | 0 => jsOrStr lastError genSummaryExhaustedMsg
  | f + 1 =>
    if retryCount < 3 then
      match att n with
      | ChatOutcome.reply v => jsOrStr v genSummaryDefault
      | ChatOutcome.retryable msg =>
        if retryCount + 1 < 3 then generateSummaryGo att (n + 1) (retryCount + 1) lastError f
        else generateSummaryGo att (n + 1) (retryCount + 2) (some msg) f
      | ChatOutcome.netError msg => generateSummaryGo att (n + 1) (retryCount + 1) (some msg) f
    else jsOrStr lastError genSummaryExhaustedMsg

/-- The client-side `generateSummary` with `maxRetries = 3`: the
`summaryText` value `refreshSummary` awaits.  Note the exhaustion path
resolves with the raw `lastError?.message`, not an `Error:`-prefixed
string. -/
def generateSummary (att : Nat → ChatOutcome) : Str :=
  generateSummaryGo att 0 0 none 4

/-! Concrete instances used by the claim theorems below. -/

/-- Date used by the C1 evaluation. -/
def c1Date : Str := "2024-01-02".toList

/-- First payload saved for (c1Date, en, US). -/
def c1First : SummaryData :=
  { news := some ("first".toList), trends := none, finance := none,
    overall := none, generatedAt := some ("g1".toList), automated := true }

/-- Second payload saved for the same triple. -/
def c1Second : SummaryData :=
  { news := some ("second".toList), trends := none, finance := none,
    overall := none, generatedAt := some ("g2".toList), automated := true }

/-- Archive after the first save into an empty store. -/
def c1ArchiveOnce : Archive :=
  saveDailySummary [] c1First c1Date regionLanguage regionCountry ("ts1".toList) false

/-- Archive after saving again for the very same (date, language, country). -/
def c1ArchiveTwice : Archive :=
  saveDailySummary c1ArchiveOnce c1Second c1Date regionLanguage regionCountry ("ts2".toList) false

/-- Calendar day used by the C2 witness. -/
def c2Date : Str := "2025-06-10".toList

/-- A collection bundle with news present (sufficient data). -/
def c2Bundle : Bundle :=
  { news := some [{ title := "t".toList, description := "d".toList, source := "s".toList }],
    trends := none, finance := none }

/-- A well-formed LLM reply with all four headers. -/
def c2Text : Str :=
  "NEWS HIGHLIGHTS: a TRENDING TOPICS: b MARKET OVERVIEW: c INFO GENIE: d".toList

/-- A succeeding generation environment. -/
def c2Env : GenEnv :=
  { innerThrow := false, sectionData := some c2Bundle, llm := some c2Text,
    genAt := "2025-06-10T23:00:10".toList, saveTs := "2025-06-10T23:00:11".toList,
    marketOpen := false }

/-- Insufficient bundle for the C3 witness: news succeeded but empty,
finance failed, trends present. -/
def c3BundleEmpty : Bundle :=
  { news := some [], trends := some [{ title := "topic".toList, traffic := "N/A".toList }],
    finance := none }

/-- Bundle for the C3 witness second half: trends unavailable, news present. -/
def c3BundleNewsOnly : Bundle :=
  { news := some [{ title := "t".toList, description := "d".toList, source := "s".toList }],
    trends := none, finance := none }

/-- Date used by the C3 witness. -/
def c3Date : Str := "2025-06-11".toList

/-- Environment around `c3BundleEmpty`. -/
def c3EnvEmpty : GenEnv :=
  { innerThrow := false, sectionData := some c3BundleEmpty, llm := some ("ok".toList),
    genAt := "g".toList, saveTs := "ts".toList, marketOpen := false }

/-- Environment around `c3BundleNewsOnly`, with a failing LLM. -/
def c3EnvNewsOnly : GenEnv :=
  { innerThrow := false, sectionData := some c3BundleNewsOnly, llm := none,
    genAt := "g".toList, saveTs := "ts".toList, marketOpen := false }

/-- Date of the C4 failing input. -/
def c4Date : Str := "2025-06-10".toList

/-- The record already stored for (c4Date, en, US) before 11:00 PM. -/
def c4Old : StoredSummary :=
  { news := some ("old news".toList), trends := none, finance := none,
    overall := none, generatedAt := some ("2025-06-10T09:00:00".toList),
    automated := false, language := some ("en".toList), country := some ("US".toList),
    timestamp := some ("2025-06-10T09:00:01".toList), marketOpen := some false }

/-- Archive already holding a record for today when the 11:00 PM trigger fires. -/
def c4Archive : Archive := [(c4Date, DateBucket.one c4Old)]

/-- Bundle with fresh news available at 11:00 PM. -/
def c4Bundle : Bundle :=
  { news := some [{ title := "n".toList, description := "d".toList, source := "s".toList }],
    trends := none, finance := none }

/-- A generation environment in which fresh data and a valid LLM reply are
available, so only the existing-record check can stop the pass. -/
def c4Env : GenEnv :=
  { innerThrow := false, sectionData := some c4Bundle,
    llm := some ("NEWS HIGHLIGHTS: fresh TRENDING TOPICS: x MARKET OVERVIEW: y INFO GENIE: z".toList),
    genAt := "2025-06-10T23:00:10".toList, saveTs := "2025-06-10T23:00:11".toList,
    marketOpen := false }

/-- The C5 counterexample input: only the market-overview header. -/
def c5Text : Str := "MARKET OVERVIEW: Stocks rallied.".toList

/-- Thursday, December 25, 2025, 10:00 Eastern (weekday, inside market hours). -/
def c6Dec25 : ETTime :=
  { year := 2025, month := 11, date := 25, day := 4, hour := 10, minute := 0 }

/-- Saturday, December 25, 2027, 12:30 Eastern. -/
def c6Dec25b : ETTime :=
  { year := 2027, month := 11, date := 25, day := 6, hour := 12, minute := 30 }

/-- A completion oracle on which every attempt rejects. -/
def failCall : Nat → Str → CallOutcome := fun _ _ => CallOutcome.failure

/-- An environment for the C8 witness. -/
def c8Env : GenEnv :=
  { innerThrow := true, sectionData := none, llm := none,
    genAt := "g".toList, saveTs := "ts".toList, marketOpen := false }

/-- Local date string for the C9 failing input. -/
def c9Today : Str := "2025-06-12".toList

/-- A round-trip oracle on which every `/api/chat` attempt rejects with a
network fault — the message the `fetch` API raises on a dead connection. -/
def c9FailAtt : Nat → ChatOutcome :=
  fun _ => ChatOutcome.netError ("Failed to fetch".toList)

/-- Calendar-date key of an entry, decoded; 0 for an invalid date. -/
def entryDateVal (e : HistoryEntry) : Nat := (dateValue e.date).getD 0

/-- Descending-date order between history entries. -/
def histRel (a b : HistoryEntry) : Prop := entryDateVal b ≤ entryDateVal a

/-- A legacy record (no language/country tags) for the C10 witness. -/
def c10Legacy : StoredSummary :=
  { news := some ("n".toList), trends := none, finance := none, overall := none,
    generatedAt := none, automated := false, language := none, country := none,
    timestamp := none, marketOpen := none }

/-- A tagged en-US record for the C10 witness. -/
def c10RecA : StoredSummary :=
  { news := some ("a".toList), trends := none, finance := none, overall := none,
    generatedAt := some ("g".toList), automated := true, language := some ("en".toList),
    country := some ("US".toList), timestamp := some ("t1".toList), marketOpen := some true }

/-- A tagged fr-FR record for the C10 witness. -/
def c10RecB : StoredSummary :=
  { news := none, trends := some ("b".toList), finance := none, overall := none,
    generatedAt := some ("g".toList), automated := false, language := some ("fr".toList),
    country := some ("FR".toList), timestamp := some ("t2".toList), marketOpen := some false }

/-- Mixed archive for the C10 witness: out-of-order dates, a legacy single
bucket, a list bucket, a malformed region-suffixed key and a non-date key. -/
def c10Archive : Archive :=
  [("2024-01-05".toList, DateBucket.one c10Legacy),
   ("2024-03-10".toList, DateBucket.many [c10RecA, c10RecB]),
   ("2024-02-20-en-US".toList, DateBucket.one c10RecA),
   ("notes".toList, DateBucket.one c10RecB),
   ("2024-02-01".toList, DateBucket.one c10RecA)]

/-! Claim theorems. -/

/-- C1.  The store violates the claimed per-triple replacement invariant:
starting from the empty archive, saving for (c1Date, en, US) and then
saving again for the very same triple leaves TWO records in the date
bucket, and `loadDailySummary` answers the first — the stale one
(`news = "first"`), not the replacement.  The single-object branch of
`saveDailySummary` converts to an array without filtering the matching
triple, contradicting the replacement performed by its own array branch. -/
theorem claim_C1_code_eval :
    (loadDailySummary c1ArchiveTwice c1Date regionLanguage regionCountry).map (fun r => r.news)
      = some (some ("first".toList)) ∧
    recordsForDate c1ArchiveTwice c1Date = 2 := by decide

/-- C4.  The 11:00 PM trigger does not overwrite: with a record already
stored for today's (date, en, US) triple and a fully succeeding
environment, `generateDailySummary` leaves the archive unchanged (the
existing-record check in `generateSummaryForRegion` skips), contradicting
the "always generate and overwrite" contract stated by the source's own
comment and log line at the 11:00 PM cron registration. -/
theorem claim_C4_code_eval :
    generateDailySummary { isGenerating := false, lastGenerationDate := none } c4Archive c4Date c4Env
      = ({ isGenerating := false, lastGenerationDate := some c4Date }, c4Archive) ∧
    loadDailySummary c4Archive c4Date regionLanguage regionCountry = some c4Old := by decide

/-- C5 counterexample.  On input holding only the market-overview header
(and no other section header and no `---`), the market-overview field is
absent — not the trimmed text to end-of-input the claim asserts — because
the finance regex only matches when an info-genie header or a horizontal
rule follows.  Both parsers agree. -/
theorem claim_C5_counterexample :
    jsIncludes c5Text marketHdr = true ∧
    (parseAutomatedSummarySections c5Text).finance = none ∧
    (parseSummarySections c5Text).finance = none := by decide

/-- C6 counterexample.  On Thursday, December 25, 2025 at 10:00 Eastern,
the finance-client evaluator answers open for the crypto pair BTC-USD,
but the server-side `isMarketOpen` — the evaluator the scheduling logic
and the prompt builder actually call — takes no instrument at all and
answers closed, so the claimed crypto rule does not hold for it. -/
theorem claim_C6_counterexample :
    financeIsMarketOpen (some ("BTC-USD".toList)) c6Dec25 = true ∧
    serverIsMarketOpen c6Dec25 = false := by decide

/-- C7 counterexample.  On the automated path, when every completion
attempt fails, all three attempts use the one fixed model — no fallback
model is ever tried — and the sentinel `none` is returned. -/
theorem claim_C7_counterexample :
    generateAutomatedSummary failCall
      = ([autoSelectedModel, autoSelectedModel, autoSelectedModel], none) := by decide

/-- C8.  Starting from a quiescent state (flag down), every invocation of
`generateDailySummary` — a skip on the same-day memo, a run whose inner
stage errored, or a successful run — returns with `isGenerating = false`:
the `finally` clause clears the single-flight guard on the main path and
the early returns never raise it. -/
theorem claim_C8_flag_cleared (st : OrchState) (archive : Archive) (today : Str) (env : GenEnv)
    (h : st.isGenerating = false) :
    (generateDailySummary st archive today env).1.isGenerating = false := by
  unfold generateDailySummary
  rw [h]
  simp only [Bool.false_eq_true, if_false]
  split
  · exact h
  · rfl

/-- C8 witness: a concrete invocation whose inner stage throws. -/
theorem claim_C8_witness :
    (generateDailySummary { isGenerating := false, lastGenerationDate := none } []
      ("2025-01-01".toList) c8Env).1.isGenerating = false :=
  claim_C8_flag_cleared _ _ _ _ rfl

/-- The marker-update condition of `refreshSummary`, exactly: the
persisted `lastSummaryRefreshDate` is written when and only when the
daily gate passes and the raced attempt resolves to text free of the two
literals `Error:` / `Unable to generate` — which, as `claim_C9_code_eval`
shows, is NOT the same as the attempt having succeeded. -/
theorem refreshSummary_marker_iff (cs : ClientStore) (today : Str) (isLocalhost : Bool)
    (attempt : Except Unit (Option Str)) :
    (refreshSummary cs today isLocalhost attempt).1.lastSummaryRefreshDate =
      if !(hasRefreshedToday cs today isLocalhost) && attemptSucceeded attempt
      then some today else cs.lastSummaryRefreshDate := by
  by_cases h : hasRefreshedToday cs today isLocalhost
  · simp [refreshSummary, attemptSucceeded, h]
  · cases attempt with
    | error e => simp [refreshSummary, attemptSucceeded, h]
    | ok v =>
      by_cases hv : validSummaryText v
      · simp [refreshSummary, attemptSucceeded, h, hv]
      · simp [refreshSummary, attemptSucceeded, h, hv]

/-- C9.  A failed manual attempt does consume the daily quota: when every
`/api/chat` round trip rejects (here with the network fault message
`Failed to fetch`), the client `generateSummary` exhausts its retries and
RESOLVES with the raw `lastError?.message` — a string containing neither
`Error:` nor `Unable to generate` — so `refreshSummary` takes its success
branch and writes `lastSummaryRefreshDate`, blocking a same-day retry.
This contradicts the claim and the code's own error-text convention: the
loop's exhaustion fallback and both catch-path messages are
`Error:`-prefixed precisely so that this check catches them. -/
theorem claim_C9_code_eval :
    generateSummary c9FailAtt = "Failed to fetch".toList ∧
    validSummaryText (some (generateSummary c9FailAtt)) = true ∧
    (refreshSummary { lastSummaryRefreshDate := none } c9Today false
        (Except.ok (some (generateSummary c9FailAtt)))).1.lastSummaryRefreshDate = some c9Today ∧
    (refreshSummary { lastSummaryRefreshDate := none } c9Today false
        (Except.ok (some (generateSummary c9FailAtt)))).2 = RefreshOutcome.succeeded := by
  decide

/-- Writing a bucket and reading the same key gives that bucket back. -/
theorem lookupDate_setDate_self (a : Archive) (d : Str) (b : DateBucket) :
    lookupDate (setDate a d b) d = some b := by
  induction a with
  | nil => simp [setDate, lookupDate]
  | cons kv rest ih =>
    by_cases h : kv.1 == d
    · simp [setDate, lookupDate, h]
    · simp [setDate, lookupDate, h, ih]

/-- C2.  From a quiescent orchestrator state on a day with no stored
record yet, a succeeding scheduled invocation stores exactly one record
for that day and stamps the `lastGenerationDate` memo; any immediately
following invocation on the same day (whatever its environment) returns
both state and archive unchanged — the memo makes it a no-op. -/
theorem claim_C2_second_run_noop (st : OrchState) (archive : Archive) (today : Str)
    (env env2 : GenEnv) (b : Bundle)
    (h1 : st.isGenerating = false)
    (h2 : st.lastGenerationDate ≠ some today)
    (h3 : lookupDate archive today = none)
    (h4 : env.innerThrow = false)
    (h5 : env.sectionData = some b)
    (h6 : (newsMissing b && financeMissing b) = false)
    (h7 : validSummaryText env.llm = true) :
    (generateDailySummary st archive today env).1.lastGenerationDate = some today ∧
    recordsForDate (generateDailySummary st archive today env).2 today = 1 ∧
    generateDailySummary (generateDailySummary st archive today env).1
        (generateDailySummary st archive today env).2 today env2
      = generateDailySummary st archive today env := by
  have hload : loadDailySummary archive today regionLanguage regionCountry = none := by
    unfold loadDailySummary
    rw [h3]
  have hbe : (st.lastGenerationDate == some today) = false := by
    simp [h2]
  have hgen : generateSummaryForRegion archive regionLanguage regionCountry today env
      = (setDate archive today (DateBucket.one (summaryWithMetadata
          { news := some ((parseAutomatedSummarySections (env.llm.getD [])).news.getD [])
            trends := some ((parseAutomatedSummarySections (env.llm.getD [])).trends.getD [])
            finance := some ((parseAutomatedSummarySections (env.llm.getD [])).finance.getD [])
            overall := some ((parseAutomatedSummarySections (env.llm.getD [])).insights.getD [])
            generatedAt := some env.genAt
            automated := true } regionLanguage regionCountry env.saveTs env.marketOpen)),
         RegionResult.saved) := by
    simp only [generateSummaryForRegion, h4, h5, hload, h6, h7]
    simp [saveDailySummary, h3]
  have hmain : generateDailySummary st archive today env
      = ({ isGenerating := false, lastGenerationDate := some today },
         (generateSummaryForRegion archive regionLanguage regionCountry today env).1) := by
    simp only [generateDailySummary, h1, hbe]
    simp
  refine ⟨by rw [hmain], ?_, ?_⟩
  · rw [hmain, hgen]
    simp [recordsForDate, lookupDate_setDate_self]
  · rw [hmain]
    simp [generateDailySummary]

/-- C3.  First half: whenever the collected bundle has news empty or
absent and finance empty or absent (trends free to be present), the
attempt leaves the archive untouched and ends in a skip — never a save,
never an error.  Second half: with trends entirely unavailable but news
or finance non-empty, and no record stored yet, the attempt is never
stopped by any of the three skip guards — it proceeds to the completion
stage. -/
theorem claim_C3_insufficient_guard :
    (∀ (archive : Archive) (language country date : Str) (env : GenEnv) (b : Bundle),
        env.innerThrow = false → env.sectionData = some b →
        newsMissing b = true → financeMissing b = true →
        (generateSummaryForRegion archive language country date env).1 = archive ∧
        (generateSummaryForRegion archive language country date env).2 ≠ RegionResult.saved ∧
        (generateSummaryForRegion archive language country date env).2 ≠ RegionResult.errored) ∧
    (∀ (archive : Archive) (language country date : Str) (env : GenEnv) (b : Bundle),
        env.innerThrow = false → env.sectionData = some b → b.trends = none →
        (newsMissing b = false ∨ financeMissing b = false) →
        loadDailySummary archive date language country = none →
        (generateSummaryForRegion archive language country date env).2 ≠ RegionResult.skippedExisting ∧
        (generateSummaryForRegion archive language country date env).2 ≠ RegionResult.skippedNoData ∧
        (generateSummaryForRegion archive language country date env).2 ≠ RegionResult.skippedInsufficient) := by
  constructor
  · intro archive language country date env b h4 h5 hn hf
    cases hload : loadDailySummary archive date language country with
    | some r => simp [generateSummaryForRegion, h4, hload]
    | none => simp [generateSummaryForRegion, h4, h5, hload, hn, hf]
  · intro archive language country date env b h4 h5 htr hor hload
    have hguard : (newsMissing b && financeMissing b) = false := by
      cases hor with
      | inl h => simp [h]
      | inr h => simp [h]
    by_cases hv : validSummaryText env.llm
    · simp [generateSummaryForRegion, h4, h5, hload, hguard, hv]
    · simp [generateSummaryForRegion, h4, h5, hload, hguard, hv]

/-- C2 witness: concrete succeeding run on an empty archive followed by a
same-day re-run. -/
theorem claim_C2_witness :
    (generateDailySummary { isGenerating := false, lastGenerationDate := none } [] c2Date c2Env).1.lastGenerationDate = some c2Date ∧
    recordsForDate (generateDailySummary { isGenerating := false, lastGenerationDate := none } [] c2Date c2Env).2 c2Date = 1 ∧
    generateDailySummary
        (generateDailySummary { isGenerating := false, lastGenerationDate := none } [] c2Date c2Env).1
        (generateDailySummary { isGenerating := false, lastGenerationDate := none } [] c2Date c2Env).2 c2Date c2Env
      = generateDailySummary { isGenerating := false, lastGenerationDate := none } [] c2Date c2Env :=
  claim_C2_second_run_noop _ _ _ _ _ c2Bundle rfl (by decide) rfl rfl rfl (by decide) (by decide)

/-- C3 witness: a bundle with empty news, absent finance and a present
trend aborts without touching the empty archive; a bundle with news only
and trends unavailable passes every skip guard. -/
theorem claim_C3_witness :
    ((generateSummaryForRegion [] regionLanguage regionCountry c3Date c3EnvEmpty).1 = [] ∧
     (generateSummaryForRegion [] regionLanguage regionCountry c3Date c3EnvEmpty).2 ≠ RegionResult.saved ∧
     (generateSummaryForRegion [] regionLanguage regionCountry c3Date c3EnvEmpty).2 ≠ RegionResult.errored) ∧
    ((generateSummaryForRegion [] regionLanguage regionCountry c3Date c3EnvNewsOnly).2 ≠ RegionResult.skippedExisting ∧
     (generateSummaryForRegion [] regionLanguage regionCountry c3Date c3EnvNewsOnly).2 ≠ RegionResult.skippedNoData ∧
     (generateSummaryForRegion [] regionLanguage regionCountry c3Date c3EnvNewsOnly).2 ≠ RegionResult.skippedInsufficient) :=
  ⟨claim_C3_insufficient_guard.1 [] regionLanguage regionCountry c3Date c3EnvEmpty c3BundleEmpty rfl rfl (by decide) (by decide),
   claim_C3_insufficient_guard.2 [] regionLanguage regionCountry c3Date c3EnvNewsOnly c3BundleNewsOnly rfl rfl rfl (Or.inl (by decide)) rfl⟩

/-- C6, amended.  The always-open crypto rule belongs to the finance
client's evaluator alone: whenever its queried symbol carries the `-USD`
suffix it answers open at every instant; the server-side evaluator used
by the scheduling logic and the prompt builder consults no instrument and
answers closed on every December 25. -/
theorem claim_C6_amended :
    (∀ (iv : Option Str) (t : ETTime),
        endsWithStr (clientQuerySymbol iv) ("-USD".toList) = true →
        financeIsMarketOpen iv t = true) ∧
    (∀ t : ETTime, t.month = 11 → t.date = 25 → serverIsMarketOpen t = false) := by
  constructor
  · intro iv t h
    simp only [financeIsMarketOpen]
    rw [h]
    simp
  · intro t hm hd
    have hhol : isHoliday t = true := by
      simp [isHoliday, hm, hd]
    simp [serverIsMarketOpen, marketCalendarOpen, hhol]

/-- C6 witness: a lower-case crypto symbol on a Saturday Christmas. -/
theorem claim_C6_witness :
    financeIsMarketOpen (some ("btc-usd".toList)) c6Dec25b = true ∧
    serverIsMarketOpen c6Dec25b = false :=
  ⟨claim_C6_amended.1 _ c6Dec25b (by decide), claim_C6_amended.2 c6Dec25b rfl rfl⟩

/-- Prefix matching restricts along appends on the pattern side. -/
theorem leadsWith_append_first (a b s : Str) (h : leadsWith (a ++ b) s = true) :
    leadsWith a s = true := by
  induction a generalizing s with
  | nil => rfl
  | cons c cs ih =>
    cases s with
    | nil => simp [leadsWith] at h
    | cons d ds =>
      simp only [List.cons_append, leadsWith, Bool.and_eq_true] at h ⊢
      exact ⟨h.1, ih ds h.2⟩

/-- A pattern matching at the front occurs in the text. -/
theorem hasSub_of_leads (p s : Str) (h : leadsWith p s = true) : hasSub p s = true := by
  cases s with
  | nil => simpa [hasSub] using h
  | cons c rest => simp [hasSub, h]

/-- An occurrence survives prepending a character. -/
theorem hasSub_cons (p : Str) (c : Char) (s : Str) (h : hasSub p s = true) :
    hasSub p (c :: s) = true := by
  simp [hasSub, h]

/-- A pattern matching at the front after a fixed prelude occurs in the text. -/
theorem hasSub_of_leads_pre (pre p s : Str) (h : leadsWith (pre ++ p) s = true) :
    hasSub p s = true := by
  induction pre generalizing s with
  | nil => exact hasSub_of_leads p s h
  | cons c cs ih =>
    cases s with
    | nil => simp [leadsWith] at h
    | cons d ds =>
      simp only [List.cons_append, leadsWith, Bool.and_eq_true] at h
      exact hasSub_cons _ _ _ (ih ds h.2)

/-- An occurrence of a longer pattern gives one of its first part. -/
theorem hasSub_first_of_append (a b s : Str) (h : hasSub (a ++ b) s = true) :
    hasSub a s = true := by
  induction s with
  | nil =>
    simp only [hasSub] at h ⊢
    exact leadsWith_append_first a b [] h
  | cons c rest ih =>
    simp only [hasSub, Bool.or_eq_true] at h ⊢
    cases h with
    | inl h => exact Or.inl (leadsWith_append_first a b _ h)
    | inr h => exact Or.inr (ih h)

/-- An absent pattern cannot match at the front. -/
theorem leads_false_of_hasSub_false (p s : Str) (h : hasSub p s = false) :
    leadsWith p s = false := by
  cases s with
  | nil => simpa [hasSub] using h
  | cons c rest =>
    simp [hasSub] at h
    exact h.1

/-- Absence of a pattern is inherited by the tail. -/
theorem hasSub_tail_false (p : Str) (c : Char) (s : Str) (h : hasSub p (c :: s) = false) :
    hasSub p s = false := by
  simp [hasSub] at h
  exact h.2

/-- Absence of a pattern is inherited by every drop. -/
theorem hasSub_drop_false (p s : Str) (n : Nat) (h : hasSub p s = false) :
    hasSub p (s.drop n) = false := by
  induction n generalizing s with
  | zero => simpa using h
  | succ m ih =>
    cases s with
    | nil => simpa using h
    | cons c rest => exact ih rest (hasSub_tail_false p c rest h)

/-- The markdown-emphasised header cannot match at the front of text that
nowhere contains the plain header. -/
theorem leads_starred_false (hdr s : Str) (h : hasSub hdr s = false) :
    leadsWith (starred hdr) s = false := by
  cases hlw : leadsWith (starred hdr) s with
  | false => rfl
  | true =>
    exfalso
    have hform : starred hdr = "**".toList ++ (hdr ++ "**".toList) := by
      simp [starred]
    rw [hform] at hlw
    have h2 := hasSub_of_leads_pre ("**".toList) (hdr ++ ("**".toList)) s hlw
    have h3 := hasSub_first_of_append hdr ("**".toList) s h2
    rw [h] at h3
    exact Bool.false_ne_true h3

/-- The plain header with its optional colon cannot match at the front of
text that nowhere contains the header. -/
theorem leads_colon_false (hdr s : Str) (h : hasSub hdr s = false) :
    leadsWith (hdr ++ [':']) s = false := by
  cases hlw : leadsWith (hdr ++ [':']) s with
  | false => rfl
  | true =>
    exfalso
    have h2 := leadsWith_append_first hdr [':'] s hlw
    have h3 := hasSub_of_leads hdr s h2
    rw [h] at h3
    exact Bool.false_ne_true h3

/-- A section regex whose header literal occurs nowhere in the text fails,
whatever its terminators. -/
theorem scanMatch_none_of_no_hdr (hdr : Str) (terms : List Str) :
    ∀ s, hasSub hdr s = false → scanMatch (starred hdr) hdr terms s = none := by
  intro s
  induction s with
  | nil =>
    intro h
    have l1 : leadsWith (starred hdr) [] = false := leads_starred_false hdr [] h
    have l2 : leadsWith (hdr ++ [':']) [] = false := leads_colon_false hdr [] h
    have l3 : leadsWith hdr [] = false := leads_false_of_hasSub_false hdr [] h
    simp [scanMatch, tryHeaderAt, l1, l2, l3]
  | cons c rest ih =>
    intro h
    have l1 : leadsWith (starred hdr) (c :: rest) = false := leads_starred_false hdr _ h
    have l2 : leadsWith (hdr ++ [':']) (c :: rest) = false := leads_colon_false hdr _ h
    have l3 : leadsWith hdr (c :: rest) = false := leads_false_of_hasSub_false hdr _ h
    have htry : tryHeaderAt (starred hdr) hdr terms (c :: rest) = none := by
      simp [tryHeaderAt, l1, l2, l3]
    simp [scanMatch, htry, ih (hasSub_tail_false hdr c rest h)]

/-- The end-anchored section regex fails likewise. -/
theorem scanMatchEnd_none_of_no_hdr (hdr : Str) :
    ∀ s, hasSub hdr s = false → scanMatchEnd (starred hdr) hdr s = none := by
  intro s
  induction s with
  | nil =>
    intro h
    have l1 : leadsWith (starred hdr) [] = false := leads_starred_false hdr [] h
    have l2 : leadsWith (hdr ++ [':']) [] = false := leads_colon_false hdr [] h
    have l3 : leadsWith hdr [] = false := leads_false_of_hasSub_false hdr [] h
    simp [scanMatchEnd, tryHeaderAtEnd, l1, l2, l3]
  | cons c rest ih =>
    intro h
    have l1 : leadsWith (starred hdr) (c :: rest) = false := leads_starred_false hdr _ h
    have l2 : leadsWith (hdr ++ [':']) (c :: rest) = false := leads_colon_false hdr _ h
    have l3 : leadsWith hdr (c :: rest) = false := leads_false_of_hasSub_false hdr _ h
    have htry : tryHeaderAtEnd (starred hdr) hdr (c :: rest) = none := by
      simp [tryHeaderAtEnd, l1, l2, l3]
    simp [scanMatchEnd, htry, ih (hasSub_tail_false hdr c rest h)]

/-- With no info-genie header and no horizontal rule anywhere, the lazy
capture of the market-overview regex finds no terminator and fails. -/
theorem captureUntil_finance_none :
    ∀ s, hasSub genieHdr s = false → hasSub hrMark s = false →
      captureUntil [starred genieHdr, genieHdr, hrMark] s = none := by
  intro s
  induction s with
  | nil => intro _ _; rfl
  | cons c rest ih =>
    intro hg hr
    have l1 : leadsWith (starred genieHdr) (c :: rest) = false := leads_starred_false _ _ hg
    have l2 : leadsWith genieHdr (c :: rest) = false := leads_false_of_hasSub_false _ _ hg
    have l3 : leadsWith hrMark (c :: rest) = false := leads_false_of_hasSub_false _ _ hr
    have hterm : isTermAt [starred genieHdr, genieHdr, hrMark] (c :: rest) = false := by
      simp [isTermAt, l1, l2, l3]
    simp [captureUntil, hterm,
          ih (hasSub_tail_false _ _ _ hg) (hasSub_tail_false _ _ _ hr)]

/-- The market-overview regex fails on any text without an info-genie
header and without a horizontal rule, even when its own header occurs. -/
theorem scanMatch_market_none :
    ∀ s, hasSub genieHdr s = false → hasSub hrMark s = false →
      scanMatch (starred marketHdr) marketHdr [starred genieHdr, genieHdr, hrMark] s = none := by
  intro s
  induction s with
  | nil => intro _ _; rfl
  | cons c rest ih =>
    intro hg hr
    have hg2 := hasSub_tail_false _ _ _ hg
    have hr2 := hasSub_tail_false _ _ _ hr
    have hcap : ∀ n, captureUntil [starred genieHdr, genieHdr, hrMark] ((c :: rest).drop n) = none :=
      fun n => captureUntil_finance_none _ (hasSub_drop_false _ _ n hg) (hasSub_drop_false _ _ n hr)
    have hcap2 : ∀ n, captureUntil [starred genieHdr, genieHdr, hrMark] (rest.drop n) = none :=
      fun n => captureUntil_finance_none _ (hasSub_drop_false _ _ n hg2) (hasSub_drop_false _ _ n hr2)
    have htry : tryHeaderAt (starred marketHdr) marketHdr [starred genieHdr, genieHdr, hrMark] (c :: rest) = none := by
      simp [tryHeaderAt, hcap, hcap2]
    simp [scanMatch, htry, ih hg2 hr2]

/-- C5, amended.  On text that nowhere contains the news, trending-topics
or info-genie header literals nor a horizontal rule — in particular on
text holding only the market-overview header — both parsers return all
four fields absent: market-overview content is extracted only up to a
following info-genie header or horizontal rule, never to end of input. -/
theorem claim_C5_amended (t : Str)
    (h1 : hasSub newsHdr t = false)
    (h2 : hasSub trendsHdr t = false)
    (h3 : hasSub genieHdr t = false)
    (h4 : hasSub hrMark t = false) :
    parseAutomatedSummarySections t = { news := none, trends := none, finance := none, insights := none } ∧
    parseSummarySections t = { news := none, trends := none, finance := none, insights := none } := by
  have hnews := scanMatch_none_of_no_hdr newsHdr [starred trendsHdr, trendsHdr, hrMark] t h1
  have htr := scanMatch_none_of_no_hdr trendsHdr [starred marketHdr, marketHdr, hrMark] t h2
  have hfin := scanMatch_market_none t h3 h4
  have hins := scanMatchEnd_none_of_no_hdr genieHdr t h3
  constructor <;>
    simp [parseAutomatedSummarySections, parseSummarySections, hnews, htr, hfin, hins]

/-- C5 witness: the market-overview-only input satisfies the amended
statement concretely. -/
theorem claim_C5_witness :
    parseAutomatedSummarySections c5Text = { news := none, trends := none, finance := none, insights := none } ∧
    parseSummarySections c5Text = { news := none, trends := none, finance := none, insights := none } :=
  claim_C5_amended c5Text (by decide) (by decide) (by decide) (by decide)

/-- C7, amended.  The ordered, deduplicated model-fallback behaviour
(requested model tried first) belongs to the chat-endpoint helper
`callOpenRouterWithRetry`, which serves the interactive path and throws
once its attempts are exhausted; the automated path instead retries its
one fixed model three times and returns the `null` sentinel, never
throwing.  Shown against the oracle on which every attempt fails. -/
theorem claim_C7_amended (requested : Str) :
    generateAutomatedSummary failCall
      = ([autoSelectedModel, autoSelectedModel, autoSelectedModel], none) ∧
    (uniqueModels requested).headD [] = requested ∧
    callOpenRouterWithRetry failCall requested 2
      = ((uniqueModels requested).take 3, Except.error ()) := by
  refine ⟨by decide, ?_⟩
  by_cases hA : requested = ("openai/gpt-oss-20b:free".toList)
  · subst hA
    exact ⟨rfl, rfl⟩
  by_cases hB : requested = ("meta-llama/llama-3.3-70b-instruct:free".toList)
  · subst hB
    exact ⟨rfl, rfl⟩
  by_cases hC : requested = ("qwen/qwen3-235b-a22b:free".toList)
  · subst hC
    exact ⟨rfl, rfl⟩
  have hA2 : ("openai/gpt-oss-20b:free".toList : Str) ≠ requested := fun h => hA h.symm
  have hB2 : ("meta-llama/llama-3.3-70b-instruct:free".toList : Str) ≠ requested := fun h => hB h.symm
  have hC2 : ("qwen/qwen3-235b-a22b:free".toList : Str) ≠ requested := fun h => hC h.symm
  simp only [ne_eq] at hA2 hB2 hC2
  simp at hA2 hB2 hC2
  have huniq : uniqueModels requested
      = [requested,
         "openai/gpt-oss-20b:free".toList,
         "meta-llama/llama-3.3-70b-instruct:free".toList,
         "qwen/qwen3-235b-a22b:free".toList] := by
    simp only [uniqueModels, fallbackModels, jsSetDedupAux, strMem]
    simp [hA2, hB2, hC2]
  constructor
  · rw [huniq]
    rfl
  · simp only [callOpenRouterWithRetry]
    rw [huniq]
    rfl

/-- Members of a stable insertion are the new element or old members. -/
theorem mem_sortInsert (x z : HistoryEntry) :
    ∀ l, z ∈ sortInsert x l → z = x ∨ z ∈ l := by
  intro l
  induction l with
  | nil =>
    intro h
    simp [sortInsert] at h
    exact Or.inl h
  | cons y ys ih =>
    intro h
    by_cases hc : historyCmp y x ≤ 0
    · rw [sortInsert, if_pos hc] at h
      rcases List.mem_cons.mp h with h1 | h2
      · exact Or.inr (by simp [h1])
      · rcases ih h2 with h3 | h4
        · exact Or.inl h3
        · exact Or.inr (List.mem_cons_of_mem _ h4)
    · rw [sortInsert, if_neg hc] at h
      rcases List.mem_cons.mp h with h1 | h2
      · exact Or.inl h1
      · exact Or.inr h2

/-- On entries whose keys are real calendar dates the comparator orders
exactly by the decoded date value. -/
theorem historyCmp_le_iff (a b : HistoryEntry)
    (ha : (dateValue a.date).isSome = true) (hb : (dateValue b.date).isSome = true) :
    historyCmp a b ≤ 0 ↔ entryDateVal b ≤ entryDateVal a := by
  obtain ⟨va, hva⟩ := Option.isSome_iff_exists.mp ha
  obtain ⟨vb, hvb⟩ := Option.isSome_iff_exists.mp hb
  simp only [historyCmp, entryDateVal, hva, hvb, Option.getD_some]
  omega

/-- Stable insertion preserves descending-date sortedness on valid entries. -/
theorem sortInsert_pairwise (x : HistoryEntry) :
    ∀ l : List HistoryEntry,
      (dateValue x.date).isSome = true →
      (∀ u ∈ l, (dateValue u.date).isSome = true) →
      l.Pairwise histRel → (sortInsert x l).Pairwise histRel := by
  intro l
  induction l with
  | nil =>
    intro _ _ _
    simp [sortInsert]
  | cons y ys ih =>
    intro hx hl hp
    have hy : (dateValue y.date).isSome = true := hl y (List.mem_cons_self y ys)
    have hys : ∀ u ∈ ys, (dateValue u.date).isSome = true :=
      fun u hu => hl u (List.mem_cons_of_mem _ hu)
    rcases List.pairwise_cons.mp hp with ⟨hyall, hpys⟩
    by_cases hc : historyCmp y x ≤ 0
    · rw [sortInsert, if_pos hc]
      refine List.pairwise_cons.mpr ⟨?_, ih hx hys hpys⟩
      intro z hz
      rcases mem_sortInsert x z ys hz with h1 | h2
      · rw [h1]
        exact (historyCmp_le_iff y x hy hx).mp hc
      · exact hyall z h2
    · rw [sortInsert, if_neg hc]
      have hxy : histRel x y := by
        have h1 : ¬ entryDateVal x ≤ entryDateVal y :=
          fun hle => hc ((historyCmp_le_iff y x hy hx).mpr hle)
        exact Nat.le_of_not_le h1
      refine List.pairwise_cons.mpr ⟨?_, hp⟩
      intro z hz
      rcases List.mem_cons.mp hz with h1 | h2
      · rw [h1]
        exact hxy
      · exact le_trans (hyall z h2) hxy

/-- The insertion-sort fold yields a descending-date-sorted list when all
inputs and the accumulator are valid. -/
theorem sortFold_pairwise :
    ∀ (l acc : List HistoryEntry),
      (∀ u ∈ l, (dateValue u.date).isSome = true) →
      (∀ u ∈ acc, (dateValue u.date).isSome = true) →
      acc.Pairwise histRel →
      (l.foldl (fun acc x => sortInsert x acc) acc).Pairwise histRel := by
  intro l
  induction l with
  | nil =>
    intro acc _ _ hp
    simpa using hp
  | cons x xs ih =>
    intro acc hl hacc hp
    have hx := hl x (List.mem_cons_self x xs)
    have hxs : ∀ u ∈ xs, (dateValue u.date).isSome = true :=
      fun u hu => hl u (List.mem_cons_of_mem _ hu)
    have hacc2 : ∀ u ∈ sortInsert x acc, (dateValue u.date).isSome = true := by
      intro u hu
      rcases mem_sortInsert x u acc hu with h1 | h2
      · rw [h1]
        exact hx
      · exact hacc u h2
    have hp2 := sortInsert_pairwise x acc hx hacc hp
    rw [List.foldl_cons]
    exact ih (sortInsert x acc) hxs hacc2 hp2

/-- C10.  For every archive — whatever mix of legacy single buckets and
list buckets it holds — whose surviving keys denote real calendar dates,
the history endpoint's flattened entry list is sorted by calendar date in
descending order (newest first). -/
theorem claim_C10_sorted (archive : Archive)
    (h : (historyEntries archive).all (fun e => (dateValue e.date).isSome) = true) :
    (summaryHistory archive).Pairwise histRel := by
  have h' : ∀ u ∈ historyEntries archive, (dateValue u.date).isSome = true :=
    fun u hu => List.all_eq_true.mp h u hu
  exact sortFold_pairwise (historyEntries archive) [] h'
    (by intro u hu; simp at hu) List.Pairwise.nil

/-- C10 witness: a concrete mixed archive (legacy object bucket, array
bucket, malformed and non-date keys, dates out of order). -/
theorem claim_C10_witness : (summaryHistory c10Archive).Pairwise histRel :=
  claim_C10_sorted c10Archive (by decide)
